import Mathlib

/-!
Verification of the `_Shims` C module of swift-experimental-subprocess:
a shallow embedding of `Sources/_Shims/spawn.c` (`_subprocess_spawn`) and
`Sources/_Shims/shims.c` (wait-status decoders), with theorems checking the
module's specification against this embedding.

Machine integers: wait statuses are modelled as `Nat` (the nonnegative bit
patterns the OS produces; bitwise tests on the low bits agree with `%`);
`pid_t` values are modelled as `Int` (fork returns -1 on failure); errno
values and `posix_spawn` return codes are `Nat` (0 means success).
-/

/-! ## Status decoder (shims.c)

`shims.c` delegates to the platform's `<sys/wait.h>` macros.  On both
Darwin and Linux those macros compute, for a status word `s`:
  - `WIFEXITED(s)`   = `(s & 0177) == 0`
  - `WEXITSTATUS(s)` = `(s >> 8) & 0xff`
  - `WIFSIGNALED(s)` = `(s & 0177) != 0177 && (s & 0177) != 0`
  - `WTERMSIG(s)`    = `s & 0177`
Since `x & 0177 = x % 128` and `(x >> 8) & 0xff = (x / 256) % 256` on
nonnegative words, the embedding uses `%` and `/`. -/

/-- `_was_process_exited` from shims.c: `WIFEXITED(status)`. -/
def _was_process_exited (status : Nat) : Bool :=
  status % 128 == 0

/-- `_get_exit_code` from shims.c: `WEXITSTATUS(status)`. -/
def _get_exit_code (status : Nat) : Nat :=
  (status / 256) % 256

/-- `_was_process_signaled` from shims.c: `WIFSIGNALED(status)`. -/
def _was_process_signaled (status : Nat) : Bool :=
  status % 128 != 127 && status % 128 != 0

/-- `_get_signal_code` from shims.c: `WTERMSIG(status)`. -/
def _get_signal_code (status : Nat) : Nat :=
  status % 128

/-- The platform's wait-status encoding of a normal termination with exit
code `c`: the kernel stores the exit code in bits 8..15 and zero in the
low seven status bits (`W_EXITCODE(c, 0) = c << 8`). -/
def encodeNormalExit (c : Nat) : Nat :=
  c * 256

/-! ## Privileged spawner (spawn.c)

`_subprocess_spawn` is embedded as pure functions over a `SpawnRequest`
(the identity/session parameters that drive its control flow) and an
`OS` oracle fixing the outcome of every underlying OS call.  The run of
each of the two processes involved is described by the list of OS calls
it performs (`Step`) together with its result. -/

/-- Darwin's `POSIX_SPAWN_SETEXEC` flag bit (0x0040). -/
def POSIX_SPAWN_SETEXEC : Nat := 64

/-- The identity/session parameters of `_subprocess_spawn`.
`uid`/`gid` model the nullable `uid_t*`/`gid_t*` arguments, `sgroups`
the nullable `gid_t*` array (with its contents), `number_of_sgroups`
and `create_session` the two C `int` arguments. -/
structure SpawnRequest where
  uid : Option Nat
  gid : Option Nat
  sgroups : Option (List Nat)
  number_of_sgroups : Int
  create_session : Int
deriving DecidableEq, Repr

/-- Outcomes of the underlying OS calls, fixed per invocation.
`forkResult` is what `fork()` returns in the original process (a child
pid on success, `-1` on failure; in the duplicate it returns 0).
For each fallible call the oracle gives a success flag and the errno
observed on failure; `getflagsRc`/`setflagsRc`/`spawnRc` are the return
codes of `posix_spawnattr_getflags`, `posix_spawnattr_setflags` and
`posix_spawn` (0 means success), and `spawnPid` the pid `posix_spawn`
stores on success. -/
structure OS where
  forkResult : Int
  forkErrno : Nat
  setuidOk : Bool
  setuidErrno : Nat
  setgidOk : Bool
  setgidErrno : Nat
  setgroupsOk : Bool
  setgroupsErrno : Nat
  setsidOk : Bool
  setsidErrno : Nat
  getflagsRc : Nat
  setflagsRc : Nat
  spawnRc : Nat
  spawnPid : Int
deriving DecidableEq, Repr

/-- One OS call made by `_subprocess_spawn`, with the arguments that
matter to the specification. -/
inductive Step where
  | fork
  | setuidCall (u : Nat)
  | setgidCall (g : Nat)
  | setgroupsCall (n : Int) (l : List Nat)
  | setsidCall
  | getflags
  | setflagsCall (f : Nat)
  | posixSpawnCall (flags : Nat)
deriving DecidableEq, Repr

/-- The pre-fork predicate of spawn.c (lines 32-35):
`uid != NULL || gid != NULL || number_of_sgroups > 0 || create_session > 0`. -/
def require_pre_fork (r : SpawnRequest) : Bool :=
  r.uid.isSome || r.gid.isSome ||
    decide (r.number_of_sgroups > 0) || decide (r.create_session > 0)

/-- How the duplicate process's run of `_subprocess_spawn` ends:
either `posix_spawn` with `POSIX_SPAWN_SETEXEC` succeeded and the
process image was replaced, or the function returned code `e` inside
the duplicate, which then continues its caller's remaining code. -/
inductive ChildOutcome where
  | replaced
  | returned (e : Nat)
deriving DecidableEq, Repr

/-- The run of one process: the OS calls it made, in order. -/
structure ChildRun where
  trace : List Step
  outcome : ChildOutcome
  attrs : Nat
deriving DecidableEq, Repr

/-- The setuid step of the duplicate (spawn.c lines 44-48): executed when
`uid != NULL`; on failure it returns errno. -/
def uidStep (r : SpawnRequest) (os : OS) : List Step × Option Nat :=
  match r.uid with
  | some u =>
    if os.setuidOk then ([Step.setuidCall u], none)
    else ([Step.setuidCall u], some os.setuidErrno)
  | none => ([], none)

/-- The setgid step of the duplicate (spawn.c lines 50-54): executed when
`gid != NULL`; on failure it returns errno. -/
def gidStep (r : SpawnRequest) (os : OS) : List Step × Option Nat :=
  match r.gid with
  | some g =>
    if os.setgidOk then ([Step.setgidCall g], none)
    else ([Step.setgidCall g], some os.setgidErrno)
  | none => ([], none)

/-- The setgroups step of the duplicate (spawn.c lines 56-60): executed
when `number_of_sgroups > 0 && sgroups != NULL`; on failure it returns
errno. -/
def groupsStep (r : SpawnRequest) (os : OS) : List Step × Option Nat :=
  match r.sgroups with
  | some l =>
    if 0 < r.number_of_sgroups then
      if os.setgroupsOk then ([Step.setgroupsCall r.number_of_sgroups l], none)
      else ([Step.setgroupsCall r.number_of_sgroups l], some os.setgroupsErrno)
    else ([], none)
  | none => ([], none)

/-- The setsid step of the duplicate (spawn.c lines 62-64): executed when
`create_session != 0`; its result is discarded by the `(void)` cast, so
it never aborts the sequence. -/
def sessionStep (r : SpawnRequest) : List Step :=
  if r.create_session ≠ 0 then [Step.setsidCall] else []

/-- The override sequence executed in the duplicate (spawn.c lines 44-65):
setuid, then setgid, then setgroups, then setsid, each step early-returning
its errno on checked failure.  Returns the calls made and `some errno`
when a checked step failed. -/
def overrideSteps (r : SpawnRequest) (os : OS) : List Step × Option Nat :=
  match uidStep r os with
  | (t, some e) => (t, some e)
  | (t1, none) =>
    match gidStep r os with
    | (t, some e) => (t1 ++ t, some e)
    | (t2, none) =>
      match groupsStep r os with
      | (t, some e) => (t1 ++ t2 ++ t, some e)
      | (t3, none) => (t1 ++ t2 ++ t3 ++ sessionStep r, none)

/-- The duplicate process's execution of `_subprocess_spawn` after
`fork()` returned 0 in it: the override sequence, then the
`POSIX_SPAWN_SETEXEC` flag mutation (spawn.c lines 68-80), then the
final `posix_spawn` (line 83), whose nonzero result is returned. -/
def childRun (r : SpawnRequest) (attrs0 : Nat) (os : OS) : ChildRun :=
  match overrideSteps r os with
  | (t, some e) => ⟨t, ChildOutcome.returned e, attrs0⟩
  | (t, none) =>
    if os.getflagsRc ≠ 0 then
      ⟨t ++ [Step.getflags], ChildOutcome.returned os.getflagsRc, attrs0⟩
    else if os.setflagsRc ≠ 0 then
      ⟨t ++ [Step.getflags,
             Step.setflagsCall (Nat.lor attrs0 POSIX_SPAWN_SETEXEC)],
        ChildOutcome.returned os.setflagsRc, attrs0⟩
    else
      let a := Nat.lor attrs0 POSIX_SPAWN_SETEXEC
      ⟨t ++ [Step.getflags, Step.setflagsCall a, Step.posixSpawnCall a],
        if os.spawnRc = 0 then ChildOutcome.replaced
        else ChildOutcome.returned os.spawnRc, a⟩

/-- The run of the original (calling) process: the calls it made, the
value `_subprocess_spawn` returned in it, the value stored through the
`pid` out-parameter (`none` when the function itself did not store one),
and the final flag word of the caller-visible spawn attributes. -/
structure ParentRun where
  trace : List Step
  ret : Nat
  pidOut : Option Int
  attrs : Nat
deriving DecidableEq, Repr

/-- The original process's execution of `_subprocess_spawn`.
Path B (pre-fork required): `fork()`, then `*pid = childPid` and return
`childPid < 0 ? errno : 0` (spawn.c lines 38-42).  Path A: a single
`posix_spawn` whose result is returned as-is (line 83); `posix_spawn`
stores the new pid on success. -/
def parentRun (r : SpawnRequest) (attrs0 : Nat) (os : OS) : ParentRun :=
  if require_pre_fork r then
    { trace := [Step.fork]
      ret := if os.forkResult < 0 then os.forkErrno else 0
      pidOut := some os.forkResult
      attrs := attrs0 }
  else
    { trace := [Step.posixSpawnCall attrs0]
      ret := os.spawnRc
      pidOut := if os.spawnRc = 0 then some os.spawnPid else none
      attrs := attrs0 }

/-- A rank for OS calls reflecting the order in which spawn.c's code makes
them: fork, then the four override steps, then the flag read/write, then
the final spawn. -/
def stepRank : Step → Nat
  | Step.fork => 0
  | Step.setuidCall _ => 1
  | Step.setgidCall _ => 2
  | Step.setgroupsCall _ _ => 3
  | Step.setsidCall => 4
  | Step.getflags => 5
  | Step.setflagsCall _ => 6
  | Step.posixSpawnCall _ => 7

/-- An oracle on which every OS call succeeds: fork yields child pid 5,
posix_spawn stores pid 77. -/
def osAllOk : OS :=
  ⟨5, 0, true, 0, true, 0, true, 0, true, 0, 0, 0, 0, 77⟩

/-- An oracle on which only the final `posix_spawn` fails, with error
code 8 (ENOEXEC). -/
def osSpawnFail : OS :=
  { osAllOk with spawnRc := 8 }

/-- An oracle on which only `setsid` fails, with errno 13 (EACCES). -/
def osSetsidFail : OS :=
  { osAllOk with setsidOk := false, setsidErrno := 13 }

/-- An oracle on which `fork` fails with errno 35 (EAGAIN). -/
def osForkFail : OS :=
  { osAllOk with forkResult := -1, forkErrno := 35 }

/-- An oracle on which only `setuid` fails, with errno 1 (EPERM). -/
def osUidFail : OS :=
  { osAllOk with setuidOk := false, setuidErrno := 1 }

theorem uidStep_rank (r : SpawnRequest) (os : OS) :
    ∀ s ∈ (uidStep r os).1, stepRank s = 1 := by
  rcases h : r.uid with _ | u <;>
    simp [uidStep, h] <;> split_ifs <;> simp [stepRank]

theorem gidStep_rank (r : SpawnRequest) (os : OS) :
    ∀ s ∈ (gidStep r os).1, stepRank s = 2 := by
  rcases h : r.gid with _ | g <;>
    simp [gidStep, h] <;> split_ifs <;> simp [stepRank]

theorem groupsStep_rank (r : SpawnRequest) (os : OS) :
    ∀ s ∈ (groupsStep r os).1, stepRank s = 3 := by
  rcases h : r.sgroups with _ | l <;>
    simp [groupsStep, h] <;> split_ifs <;> simp [stepRank]

theorem sessionStep_rank (r : SpawnRequest) :
    ∀ s ∈ sessionStep r, stepRank s = 4 := by
  unfold sessionStep <;> split_ifs <;> simp [stepRank]

theorem overrideSteps_rank (r : SpawnRequest) (os : OS) :
    ∀ s ∈ (overrideSteps r os).1, 1 ≤ stepRank s ∧ stepRank s ≤ 4 := by
  intro s hs
  unfold overrideSteps at hs
  rcases h1 : uidStep r os with ⟨t1, e1⟩
  rcases h2 : gidStep r os with ⟨t2, e2⟩
  rcases h3 : groupsStep r os with ⟨t3, e3⟩
  have b1 : ∀ x ∈ t1, stepRank x = 1 := by
    have := uidStep_rank r os; rw [h1] at this; exact this
  have b2 : ∀ x ∈ t2, stepRank x = 2 := by
    have := gidStep_rank r os; rw [h2] at this; exact this
  have b3 : ∀ x ∈ t3, stepRank x = 3 := by
    have := groupsStep_rank r os; rw [h3] at this; exact this
  have b4 : ∀ x ∈ sessionStep r, stepRank x = 4 := sessionStep_rank r
  rw [h1, h2, h3] at hs
  rcases e1 with _ | e1 <;> rcases e2 with _ | e2 <;> rcases e3 with _ | e3 <;>
    (try simp only [List.mem_append] at hs) <;>
    (try casesm* _ ∨ _) <;>
    first
      | (have hq := b1 s (by assumption); omega)
      | (have hq := b2 s (by assumption); omega)
      | (have hq := b3 s (by assumption); omega)
      | (have hq := b4 s (by assumption); omega)

theorem uidStep_pairwise (r : SpawnRequest) (os : OS) :
    List.Pairwise (fun a b => stepRank a < stepRank b) (uidStep r os).1 := by
  rcases h : r.uid with _ | u <;> simp [uidStep, h] <;> split_ifs <;> simp

theorem gidStep_pairwise (r : SpawnRequest) (os : OS) :
    List.Pairwise (fun a b => stepRank a < stepRank b) (gidStep r os).1 := by
  rcases h : r.gid with _ | g <;> simp [gidStep, h] <;> split_ifs <;> simp

theorem groupsStep_pairwise (r : SpawnRequest) (os : OS) :
    List.Pairwise (fun a b => stepRank a < stepRank b) (groupsStep r os).1 := by
  rcases h : r.sgroups with _ | l <;> simp [groupsStep, h] <;> split_ifs <;> simp

theorem sessionStep_pairwise (r : SpawnRequest) :
    List.Pairwise (fun a b => stepRank a < stepRank b) (sessionStep r) := by
  unfold sessionStep
  split_ifs <;> simp

theorem pairwise_rank_append {l1 l2 : List Step} {k : Nat}
    (p1 : List.Pairwise (fun a b => stepRank a < stepRank b) l1)
    (p2 : List.Pairwise (fun a b => stepRank a < stepRank b) l2)
    (hb1 : ∀ x ∈ l1, stepRank x ≤ k) (hb2 : ∀ x ∈ l2, k < stepRank x) :
    List.Pairwise (fun a b => stepRank a < stepRank b) (l1 ++ l2) := by
  rw [List.pairwise_append]
  exact ⟨p1, p2, fun a ha b hb => lt_of_le_of_lt (hb1 a ha) (hb2 b hb)⟩

theorem overrideSteps_pairwise (r : SpawnRequest) (os : OS) :
    List.Pairwise (fun a b => stepRank a < stepRank b) (overrideSteps r os).1 := by
  rcases h1 : uidStep r os with ⟨t1, e1⟩
  rcases h2 : gidStep r os with ⟨t2, e2⟩
  rcases h3 : groupsStep r os with ⟨t3, e3⟩
  have b1 : ∀ x ∈ t1, stepRank x = 1 := by
    have := uidStep_rank r os; rw [h1] at this; exact this
  have b2 : ∀ x ∈ t2, stepRank x = 2 := by
    have := gidStep_rank r os; rw [h2] at this; exact this
  have b3 : ∀ x ∈ t3, stepRank x = 3 := by
    have := groupsStep_rank r os; rw [h3] at this; exact this
  have b4 : ∀ x ∈ sessionStep r, stepRank x = 4 := sessionStep_rank r
  have p1 : List.Pairwise (fun a b => stepRank a < stepRank b) t1 := by
    have := uidStep_pairwise r os; rw [h1] at this; exact this
  have p2 : List.Pairwise (fun a b => stepRank a < stepRank b) t2 := by
    have := gidStep_pairwise r os; rw [h2] at this; exact this
  have p3 : List.Pairwise (fun a b => stepRank a < stepRank b) t3 := by
    have := groupsStep_pairwise r os; rw [h3] at this; exact this
  have p4 : List.Pairwise (fun a b => stepRank a < stepRank b) (sessionStep r) :=
    sessionStep_pairwise r
  have hb2 : ∀ x ∈ t2, 1 < stepRank x := fun x hx => by have := b2 x hx; omega
  have hb3 : ∀ x ∈ t3, 2 < stepRank x := fun x hx => by have := b3 x hx; omega
  have hb4 : ∀ x ∈ sessionStep r, 3 < stepRank x :=
    fun x hx => by have := b4 x hx; omega
  have hc12 : ∀ x ∈ t1 ++ t2, stepRank x ≤ 2 := by
    intro x hx
    rcases List.mem_append.mp hx with hx | hx
    · have := b1 x hx; omega
    · have := b2 x hx; omega
  have hc123 : ∀ x ∈ t1 ++ t2 ++ t3, stepRank x ≤ 3 := by
    intro x hx
    rcases List.mem_append.mp hx with hx | hx
    · have := hc12 x hx; omega
    · have := b3 x hx; omega
  have q12 : List.Pairwise (fun a b => stepRank a < stepRank b) (t1 ++ t2) :=
    pairwise_rank_append p1 p2 (fun x hx => le_of_eq (b1 x hx)) hb2
  have q123 : List.Pairwise (fun a b => stepRank a < stepRank b)
      (t1 ++ t2 ++ t3) :=
    pairwise_rank_append q12 p3 hc12 hb3
  have qall : List.Pairwise (fun a b => stepRank a < stepRank b)
      (t1 ++ t2 ++ t3 ++ sessionStep r) :=
    pairwise_rank_append q123 p4 hc123 hb4
  rcases e1 with _ | e1 <;> rcases e2 with _ | e2 <;> rcases e3 with _ | e3 <;>
    simp only [overrideSteps, h1, h2, h3] <;>
    first | exact qall | exact q123 | exact q12 | exact p1

theorem overrideSteps_none_eq (r : SpawnRequest) (os : OS)
    (h : (overrideSteps r os).2 = none) :
    (overrideSteps r os).1 =
      (uidStep r os).1 ++ (gidStep r os).1 ++ (groupsStep r os).1 ++
        sessionStep r := by
  rcases h1 : uidStep r os with ⟨t1, e1⟩
  rcases h2 : gidStep r os with ⟨t2, e2⟩
  rcases h3 : groupsStep r os with ⟨t3, e3⟩
  rcases e1 with _ | e1 <;> rcases e2 with _ | e2 <;> rcases e3 with _ | e3 <;>
    simp_all [overrideSteps]

theorem uidStep_requested (r : SpawnRequest) (os : OS) (u : Nat)
    (h : r.uid = some u) : (uidStep r os).1 = [Step.setuidCall u] := by
  rcases hb : os.setuidOk <;> simp [uidStep, h, hb]

theorem gidStep_requested (r : SpawnRequest) (os : OS) (g : Nat)
    (h : r.gid = some g) : (gidStep r os).1 = [Step.setgidCall g] := by
  rcases hb : os.setgidOk <;> simp [gidStep, h, hb]

theorem groupsStep_requested (r : SpawnRequest) (os : OS) (l : List Nat)
    (h : r.sgroups = some l) (hn : 0 < r.number_of_sgroups) :
    (groupsStep r os).1 = [Step.setgroupsCall r.number_of_sgroups l] := by
  rcases hb : os.setgroupsOk <;> simp [groupsStep, h, hn, hb]

theorem sessionStep_requested (r : SpawnRequest) (h : r.create_session ≠ 0) :
    sessionStep r = [Step.setsidCall] := by
  simp [sessionStep, h]

/-- C7: for every raw wait-status value encoding normal termination with
exit code c (0 ≤ c ≤ 255) under the platform encoding (`c << 8`),
`_was_process_exited` returns true and `_get_exit_code` returns c. -/
theorem exit_decode_correct (c : Nat) (h : c ≤ 255) :
    _was_process_exited (encodeNormalExit c) = true ∧
    _get_exit_code (encodeNormalExit c) = c := by
  simp only [_was_process_exited, _get_exit_code, encodeNormalExit, beq_iff_eq]
  constructor <;> omega

theorem exit_decode_correct_witness :
    _was_process_exited (encodeNormalExit 7) = true ∧
    _get_exit_code (encodeNormalExit 7) = 7 :=
  exit_decode_correct 7 (by decide)

/-- C8: no wait-status value makes `_was_process_exited` and
`_was_process_signaled` both true. -/
theorem exited_signaled_exclusive (status : Nat) :
    ¬(_was_process_exited status = true ∧
      _was_process_signaled status = true) := by
  simp only [_was_process_exited, _was_process_signaled, beq_iff_eq,
    Bool.and_eq_true, bne_iff_ne, ne_eq, not_and]
  intro h
  omega

/-- C9: a non-null supplementary-groups pointer with a zero count behaves
exactly like omitting the supplementary groups: same path selection, same
OS calls in both processes, same results. -/
theorem sgroups_zero_count_noop (u g : Option Nat) (l : List Nat) (cs : Int)
    (a : Nat) (os : OS) :
    require_pre_fork ⟨u, g, some l, 0, cs⟩ =
      require_pre_fork ⟨u, g, none, 0, cs⟩ ∧
    parentRun ⟨u, g, some l, 0, cs⟩ a os = parentRun ⟨u, g, none, 0, cs⟩ a os ∧
    childRun ⟨u, g, some l, 0, cs⟩ a os = childRun ⟨u, g, none, 0, cs⟩ a os := by
  have hreq : require_pre_fork ⟨u, g, some l, 0, cs⟩ =
      require_pre_fork ⟨u, g, none, 0, cs⟩ := by
    simp [require_pre_fork]
  have hgr : groupsStep ⟨u, g, some l, 0, cs⟩ os =
      groupsStep ⟨u, g, none, 0, cs⟩ os := by
    simp [groupsStep]
  have hu : uidStep ⟨u, g, some l, 0, cs⟩ os =
      uidStep ⟨u, g, none, 0, cs⟩ os := rfl
  have hgi : gidStep ⟨u, g, some l, 0, cs⟩ os =
      gidStep ⟨u, g, none, 0, cs⟩ os := rfl
  have hse : sessionStep ⟨u, g, some l, 0, cs⟩ =
      sessionStep ⟨u, g, none, 0, cs⟩ := rfl
  have hov : overrideSteps ⟨u, g, some l, 0, cs⟩ os =
      overrideSteps ⟨u, g, none, 0, cs⟩ os := by
    simp only [overrideSteps, hgr, hu, hgi, hse]
  refine ⟨hreq, ?_, ?_⟩
  · simp only [parentRun, hreq]
  · simp only [childRun, hov]

/-- C3 counterexample: with a negative `create_session` value (nonzero,
hence "set" in the claim's sense) and no other override, spawn.c's
predicate `create_session > 0` is false, so the function takes Path A
(a single `posix_spawn`, no fork) although the claim requires the
fork-based path. -/
theorem preFork_nonzero_counterexample :
    (⟨none, none, none, 0, -1⟩ : SpawnRequest).create_session ≠ 0 ∧
    require_pre_fork ⟨none, none, none, 0, -1⟩ = false ∧
    (parentRun ⟨none, none, none, 0, -1⟩ 0 osAllOk).trace =
      [Step.posixSpawnCall 0] ∧
    Step.fork ∉ (parentRun ⟨none, none, none, 0, -1⟩ 0 osAllOk).trace := by
  decide

/-- C3 (amended): the fork-based pre-fork path is taken iff a user id
override is present, a group id override is present, the
supplementary-group count is positive, or the create-session flag is
positive; when none holds, the function performs exactly one
`posix_spawn` in the calling process, returns its result as-is, and
never forks. -/
theorem preFork_path_selection (r : SpawnRequest) (a : Nat) (os : OS) :
    (require_pre_fork r = true ↔
      r.uid.isSome = true ∨ r.gid.isSome = true ∨
        0 < r.number_of_sgroups ∨ 0 < r.create_session) ∧
    (require_pre_fork r = false →
      parentRun r a os =
        ⟨[Step.posixSpawnCall a], os.spawnRc,
          if os.spawnRc = 0 then some os.spawnPid else none, a⟩ ∧
      Step.fork ∉ (parentRun r a os).trace) := by
  constructor
  · simp [require_pre_fork, or_assoc]
  · intro h
    constructor
    · simp [parentRun, h]
    · simp [parentRun, h]

theorem preFork_path_selection_witness :
    parentRun ⟨none, none, none, 0, 0⟩ 3 osAllOk =
      ⟨[Step.posixSpawnCall 3], 0, some 77, 3⟩ ∧
    Step.fork ∉ (parentRun ⟨none, none, none, 0, 0⟩ 3 osAllOk).trace :=
  (preFork_path_selection ⟨none, none, none, 0, 0⟩ 3 osAllOk).2 (by decide)

/-- C5: in Path B the original process stores the fork result into the
pid out-parameter and returns errno on fork failure or 0 on fork
success, performing no further step; its result is unchanged by
anything the oracle says about the duplicate's later calls. -/
theorem parent_fork_result (r : SpawnRequest) (a : Nat) (os os2 : OS)
    (h : require_pre_fork r = true) :
    ((os.forkResult < 0 →
        (parentRun r a os).ret = os.forkErrno ∧
        (parentRun r a os).pidOut = some os.forkResult) ∧
     (0 < os.forkResult →
        (parentRun r a os).ret = 0 ∧
        (parentRun r a os).pidOut = some os.forkResult ∧
        (parentRun r a os).trace = [Step.fork])) ∧
    (os2.forkResult = os.forkResult → os2.forkErrno = os.forkErrno →
      parentRun r a os2 = parentRun r a os) := by
  refine ⟨⟨fun hf => ?_, fun hf => ?_⟩, fun hfr hfe => ?_⟩
  · simp [parentRun, h, hf]
  · have hnf : ¬ os.forkResult < 0 := by omega
    simp [parentRun, h, hnf]
  · simp [parentRun, h, hfr, hfe]

theorem parent_fork_result_witness :
    (parentRun ⟨some 0, none, none, 0, 0⟩ 0 osAllOk).ret = 0 ∧
    (parentRun ⟨some 0, none, none, 0, 0⟩ 0 osAllOk).pidOut = some 5 ∧
    (parentRun ⟨some 0, none, none, 0, 0⟩ 0 osAllOk).trace = [Step.fork] :=
  ((parent_fork_result ⟨some 0, none, none, 0, 0⟩ 0 osAllOk osAllOk
    (by decide)).1).2 (by decide)

/-- C10: when fork fails in Path B, the function still writes the fork
call's return value -1 through the pid out-parameter before returning
errno, so the failed call mutates the pid slot and leaves a non-positive
value there. -/
theorem fork_failure_pid_written (r : SpawnRequest) (a : Nat) (os : OS)
    (h : require_pre_fork r = true) (hf : os.forkResult = -1) :
    (parentRun r a os).pidOut = some (-1) ∧
    (parentRun r a os).ret = os.forkErrno ∧
    ∀ p, (parentRun r a os).pidOut = some p → p ≤ 0 := by
  have hlt : os.forkResult < 0 := by omega
  refine ⟨by simp [parentRun, h, hlt, hf], by simp [parentRun, h, hlt], ?_⟩
  intro p hp
  simp [parentRun, h, hf] at hp
  omega

theorem fork_failure_pid_written_witness :
    (parentRun ⟨some 0, none, none, 0, 0⟩ 0 osForkFail).pidOut = some (-1) ∧
    (parentRun ⟨some 0, none, none, 0, 0⟩ 0 osForkFail).ret = 35 ∧
    ∀ p, (parentRun ⟨some 0, none, none, 0, 0⟩ 0 osForkFail).pidOut = some p →
      p ≤ 0 :=
  fork_failure_pid_written ⟨some 0, none, none, 0, 0⟩ 0 osForkFail
    (by decide) (by decide)

theorem childRun_trace_split (r : SpawnRequest) (a : Nat) (os : OS) :
    ∃ tl, (childRun r a os).trace = (overrideSteps r os).1 ++ tl ∧
      (∀ s ∈ tl, 5 ≤ stepRank s) ∧
      List.Pairwise (fun s1 s2 => stepRank s1 < stepRank s2) tl ∧
      (∀ f, Step.setflagsCall f ∈ tl → f = Nat.lor a POSIX_SPAWN_SETEXEC) := by
  rcases ho : overrideSteps r os with ⟨t, e⟩
  rcases e with _ | e
  · by_cases hg : os.getflagsRc = 0
    · by_cases hs : os.setflagsRc = 0
      · refine ⟨[Step.getflags,
          Step.setflagsCall (Nat.lor a POSIX_SPAWN_SETEXEC),
          Step.posixSpawnCall (Nat.lor a POSIX_SPAWN_SETEXEC)],
          by simp [childRun, ho, hg, hs], ?_, ?_, ?_⟩
        · intro s hmem
          simp only [List.mem_cons, List.not_mem_nil, or_false] at hmem
          rcases hmem with rfl | rfl | rfl <;> simp [stepRank]
        · simp [List.pairwise_cons, stepRank]
        · intro f hmem
          simp only [List.mem_cons, List.not_mem_nil, or_false] at hmem
          rcases hmem with hmem | hmem | hmem <;> simp_all
      · refine ⟨[Step.getflags,
          Step.setflagsCall (Nat.lor a POSIX_SPAWN_SETEXEC)],
          by simp [childRun, ho, hg, hs], ?_, ?_, ?_⟩
        · intro s hmem
          simp only [List.mem_cons, List.not_mem_nil, or_false] at hmem
          rcases hmem with rfl | rfl <;> simp [stepRank]
        · simp [List.pairwise_cons, stepRank]
        · intro f hmem
          simp only [List.mem_cons, List.not_mem_nil, or_false] at hmem
          rcases hmem with hmem | hmem <;> simp_all
    · refine ⟨[Step.getflags], by simp [childRun, ho, hg], ?_, by simp, ?_⟩
      · intro s hmem
        simp only [List.mem_cons, List.not_mem_nil, or_false] at hmem
        rcases hmem with rfl
        simp [stepRank]
      · intro f hmem
        simp at hmem
  · exact ⟨[], by simp [childRun, ho], by simp, by simp, by simp⟩

theorem overrideSteps_mem_setuid (r : SpawnRequest) (os : OS) (u : Nat)
    (h : Step.setuidCall u ∈ (overrideSteps r os).1) : r.uid = some u := by
  rcases hru : r.uid with _ | u0 <;>
    rcases hrg : r.gid with _ | g0 <;>
    rcases hrs : r.sgroups with _ | l0 <;>
    rcases h1 : os.setuidOk <;> rcases h2 : os.setgidOk <;>
    rcases h3 : os.setgroupsOk <;>
    by_cases hn : 0 < r.number_of_sgroups <;>
    by_cases hcs : r.create_session ≠ 0 <;>
    simp_all [overrideSteps, uidStep, gidStep, groupsStep, sessionStep]

theorem overrideSteps_mem_setgid (r : SpawnRequest) (os : OS) (g : Nat)
    (h : Step.setgidCall g ∈ (overrideSteps r os).1) :
    r.gid = some g ∧ (∀ u, r.uid = some u → os.setuidOk = true) := by
  rcases hru : r.uid with _ | u0 <;>
    rcases hrg : r.gid with _ | g0 <;>
    rcases hrs : r.sgroups with _ | l0 <;>
    rcases h1 : os.setuidOk <;> rcases h2 : os.setgidOk <;>
    rcases h3 : os.setgroupsOk <;>
    by_cases hn : 0 < r.number_of_sgroups <;>
    by_cases hcs : r.create_session ≠ 0 <;>
    simp_all [overrideSteps, uidStep, gidStep, groupsStep, sessionStep]

theorem overrideSteps_mem_setgroups (r : SpawnRequest) (os : OS) (n : Int)
    (l : List Nat)
    (h : Step.setgroupsCall n l ∈ (overrideSteps r os).1) :
    r.sgroups = some l ∧ n = r.number_of_sgroups ∧
      0 < r.number_of_sgroups ∧
      (∀ u, r.uid = some u → os.setuidOk = true) ∧
      (∀ g, r.gid = some g → os.setgidOk = true) := by
  rcases hru : r.uid with _ | u0 <;>
    rcases hrg : r.gid with _ | g0 <;>
    rcases hrs : r.sgroups with _ | l0 <;>
    rcases h1 : os.setuidOk <;> rcases h2 : os.setgidOk <;>
    rcases h3 : os.setgroupsOk <;>
    by_cases hn : 0 < r.number_of_sgroups <;>
    by_cases hcs : r.create_session ≠ 0 <;>
    simp_all [overrideSteps, uidStep, gidStep, groupsStep, sessionStep]

/-- C4: in the duplicate process the override steps execute strictly in
the order setuid, setgid, setgroups, setsid (ranks strictly increase
along the trace), and the flag mutation and final spawn come only after
them: whenever the final spawn call appears, every requested override
step appears in the trace (before it, by the ordering). -/
theorem child_override_order (r : SpawnRequest) (a : Nat) (os : OS) :
    List.Pairwise (fun s1 s2 => stepRank s1 < stepRank s2)
      (childRun r a os).trace ∧
    ((∃ f, Step.posixSpawnCall f ∈ (childRun r a os).trace) →
      (∀ u, r.uid = some u → Step.setuidCall u ∈ (childRun r a os).trace) ∧
      (∀ g, r.gid = some g → Step.setgidCall g ∈ (childRun r a os).trace) ∧
      (∀ l, r.sgroups = some l → 0 < r.number_of_sgroups →
        Step.setgroupsCall r.number_of_sgroups l ∈ (childRun r a os).trace) ∧
      (r.create_session ≠ 0 → Step.setsidCall ∈ (childRun r a os).trace)) := by
  obtain ⟨tl, htr, htl, htlp, _⟩ := childRun_trace_split r a os
  constructor
  · rw [htr]
    exact pairwise_rank_append (overrideSteps_pairwise r os) htlp
      (fun x hx => (overrideSteps_rank r os x hx).2)
      (fun x hx => by have := htl x hx; omega)
  · rintro ⟨f, hf⟩
    have hfo : Step.posixSpawnCall f ∉ (overrideSteps r os).1 := by
      intro hmem
      have := (overrideSteps_rank r os _ hmem).2
      simp [stepRank] at this
    rw [htr] at hf
    have hftl : Step.posixSpawnCall f ∈ tl := by
      rcases List.mem_append.mp hf with hf | hf
      · exact absurd hf hfo
      · exact hf
    have hnone : (overrideSteps r os).2 = none := by
      rcases ho : overrideSteps r os with ⟨t, e⟩
      rcases e with _ | e
      · rfl
      · exfalso
        have : tl = [] := by
          have h1 := htr
          rw [ho] at h1
          have h2 : (childRun r a os).trace = t := by simp [childRun, ho]
          rw [h2] at h1
          have := congrArg List.length h1
          simp at this
          simp [this]
        rw [this] at hftl
        simp at hftl
    have hteq := overrideSteps_none_eq r os hnone
    refine ⟨?_, ?_, ?_, ?_⟩
    · intro u hu
      rw [htr, hteq, uidStep_requested r os u hu]
      simp
    · intro g hg
      rw [htr, hteq, gidStep_requested r os g hg]
      simp
    · intro l hl hn
      rw [htr, hteq, groupsStep_requested r os l hl hn]
      simp
    · intro hcs
      rw [htr, hteq, sessionStep_requested r hcs]
      simp

theorem child_override_order_witness :
    Step.setuidCall 2 ∈
      (childRun ⟨some 2, some 3, some [4], 1, 1⟩ 0 osAllOk).trace ∧
    Step.setsidCall ∈
      (childRun ⟨some 2, some 3, some [4], 1, 1⟩ 0 osAllOk).trace :=
  ⟨((child_override_order ⟨some 2, some 3, some [4], 1, 1⟩ 0 osAllOk).2
      ⟨64, by decide⟩).1 2 rfl,
   ((child_override_order ⟨some 2, some 3, some [4], 1, 1⟩ 0 osAllOk).2
      ⟨64, by decide⟩).2.2.2 (by decide)⟩

/-- C2 counterexample: with only create-session requested and `setsid`
failing (errno 13), the duplicate neither aborts the sequence nor
propagates 13: the setsid call is in the trace, the remaining flag
mutation and spawn still execute, and the outcome is a successful
image replacement, so the create-session step's failure is silently
ignored. -/
theorem setsid_failure_ignored_counterexample :
    osSetsidFail.setsidOk = false ∧
    Step.setsidCall ∈ (childRun ⟨none, none, none, 0, 1⟩ 0 osSetsidFail).trace ∧
    Step.posixSpawnCall 64 ∈
      (childRun ⟨none, none, none, 0, 1⟩ 0 osSetsidFail).trace ∧
    (childRun ⟨none, none, none, 0, 1⟩ 0 osSetsidFail).outcome =
      ChildOutcome.replaced ∧
    (childRun ⟨none, none, none, 0, 1⟩ 0 osSetsidFail).outcome ≠
      ChildOutcome.returned osSetsidFail.setsidErrno := by
  decide

/-- C2 (amended): the set-user-id, set-group-id and set-supplementary-
groups steps are failure-checked — when such a step's OS call fails, it
is the last call the duplicate makes and its errno becomes the value the
duplicate's run of `_subprocess_spawn` returns — while the
create-new-session step's failure is deliberately ignored: the
duplicate's behaviour does not depend on setsid's result at all. -/
theorem override_failure_checked (r : SpawnRequest) (a : Nat) (os : OS)
    (b : Bool) (e2 : Nat) :
    (∀ u, Step.setuidCall u ∈ (childRun r a os).trace →
      os.setuidOk = false →
      (childRun r a os).outcome = ChildOutcome.returned os.setuidErrno ∧
      (childRun r a os).trace = [Step.setuidCall u]) ∧
    (∀ g, Step.setgidCall g ∈ (childRun r a os).trace →
      os.setgidOk = false →
      (childRun r a os).outcome = ChildOutcome.returned os.setgidErrno ∧
      (childRun r a os).trace.getLast? = some (Step.setgidCall g)) ∧
    (∀ n l, Step.setgroupsCall n l ∈ (childRun r a os).trace →
      os.setgroupsOk = false →
      (childRun r a os).outcome = ChildOutcome.returned os.setgroupsErrno ∧
      (childRun r a os).trace.getLast? = some (Step.setgroupsCall n l)) ∧
    childRun r a { os with setsidOk := b, setsidErrno := e2 } =
      childRun r a os := by
  obtain ⟨tl, htr, htl, _, _⟩ := childRun_trace_split r a os
  refine ⟨?_, ?_, ?_, rfl⟩
  · intro u hu hfail
    have humem : Step.setuidCall u ∈ (overrideSteps r os).1 := by
      rw [htr] at hu
      rcases List.mem_append.mp hu with hu | hu
      · exact hu
      · have := htl _ hu
        simp [stepRank] at this
    have hru : r.uid = some u := overrideSteps_mem_setuid r os u humem
    have hov : overrideSteps r os = ([Step.setuidCall u], some os.setuidErrno) := by
      simp [overrideSteps, uidStep, hru, hfail]
    constructor <;> simp [childRun, hov]
  · intro g hg hfail
    have hgmem : Step.setgidCall g ∈ (overrideSteps r os).1 := by
      rw [htr] at hg
      rcases List.mem_append.mp hg with hg | hg
      · exact hg
      · have := htl _ hg
        simp [stepRank] at this
    obtain ⟨hrg, huok⟩ := overrideSteps_mem_setgid r os g hgmem
    rcases hru : r.uid with _ | u
    · have hov : overrideSteps r os = ([Step.setgidCall g], some os.setgidErrno) := by
        simp [overrideSteps, uidStep, gidStep, hru, hrg, hfail]
      constructor <;> simp [childRun, hov]
    · have huT : os.setuidOk = true := huok u hru
      have hov : overrideSteps r os =
          ([Step.setuidCall u, Step.setgidCall g], some os.setgidErrno) := by
        simp [overrideSteps, uidStep, gidStep, hru, hrg, huT, hfail]
      constructor <;> simp [childRun, hov]
  · intro n l hmem hfail
    have hgrmem : Step.setgroupsCall n l ∈ (overrideSteps r os).1 := by
      rw [htr] at hmem
      rcases List.mem_append.mp hmem with hmem | hmem
      · exact hmem
      · have := htl _ hmem
        simp [stepRank] at this
    obtain ⟨hrs, hneq, hpos, huok, hgok⟩ :=
      overrideSteps_mem_setgroups r os n l hgrmem
    subst hneq
    rcases hru : r.uid with _ | u <;> rcases hrg : r.gid with _ | g
    · have hov : overrideSteps r os =
          ([Step.setgroupsCall r.number_of_sgroups l],
            some os.setgroupsErrno) := by
        simp [overrideSteps, uidStep, gidStep, groupsStep, hru, hrg, hrs,
          hpos, hfail]
      constructor <;> simp [childRun, hov]
    · have hgT : os.setgidOk = true := hgok g hrg
      have hov : overrideSteps r os =
          ([Step.setgidCall g, Step.setgroupsCall r.number_of_sgroups l],
            some os.setgroupsErrno) := by
        simp [overrideSteps, uidStep, gidStep, groupsStep, hru, hrg, hgT,
          hrs, hpos, hfail]
      constructor <;> simp [childRun, hov]
    · have huT : os.setuidOk = true := huok u hru
      have hov : overrideSteps r os =
          ([Step.setuidCall u, Step.setgroupsCall r.number_of_sgroups l],
            some os.setgroupsErrno) := by
        simp [overrideSteps, uidStep, gidStep, groupsStep, hru, hrg, huT,
          hrs, hpos, hfail]
      constructor <;> simp [childRun, hov]
    · have huT : os.setuidOk = true := huok u hru
      have hgT : os.setgidOk = true := hgok g hrg
      have hov : overrideSteps r os =
          ([Step.setuidCall u, Step.setgidCall g,
            Step.setgroupsCall r.number_of_sgroups l],
            some os.setgroupsErrno) := by
        simp [overrideSteps, uidStep, gidStep, groupsStep, hru, hrg, huT,
          hgT, hrs, hpos, hfail]
      constructor <;> simp [childRun, hov]

theorem override_failure_checked_witness :
    (childRun ⟨some 9, none, none, 0, 0⟩ 0 osUidFail).outcome =
      ChildOutcome.returned 1 ∧
    (childRun ⟨some 9, none, none, 0, 0⟩ 0 osUidFail).trace =
      [Step.setuidCall 9] :=
  (override_failure_checked ⟨some 9, none, none, 0, 0⟩ 0 osUidFail true 0).1
    9 (by decide) (by decide)

/-- C6: Path A passes the caller's spawn attributes through untouched to
the single `posix_spawn` call; in Path B the only attributes mutation
ever performed is OR-ing `POSIX_SPAWN_SETEXEC` into the existing flag
word, which preserves every flag bit previously present. -/
theorem attrs_passthrough (r : SpawnRequest) (a : Nat) (os : OS) :
    (require_pre_fork r = false →
      (parentRun r a os).attrs = a ∧
      (parentRun r a os).trace = [Step.posixSpawnCall a]) ∧
    ((childRun r a os).attrs = a ∨
      (childRun r a os).attrs = Nat.lor a POSIX_SPAWN_SETEXEC) ∧
    (∀ i, Nat.testBit a i = true →
      Nat.testBit (childRun r a os).attrs i = true) ∧
    (∀ f, Step.setflagsCall f ∈ (childRun r a os).trace →
      f = Nat.lor a POSIX_SPAWN_SETEXEC) := by
  have hattrs : (childRun r a os).attrs = a ∨
      (childRun r a os).attrs = Nat.lor a POSIX_SPAWN_SETEXEC := by
    rcases ho : overrideSteps r os with ⟨t, e⟩
    rcases e with _ | e
    · by_cases hg : os.getflagsRc = 0
      · by_cases hs : os.setflagsRc = 0
        · right; simp [childRun, ho, hg, hs]
        · left; simp [childRun, ho, hg, hs]
      · left; simp [childRun, ho, hg]
    · left; simp [childRun, ho]
  refine ⟨fun h => ⟨by simp [parentRun, h], by simp [parentRun, h]⟩,
    hattrs, ?_, ?_⟩
  · intro i hi
    rcases hattrs with ha | ha <;> rw [ha]
    · exact hi
    · have hb : Nat.testBit (a ||| POSIX_SPAWN_SETEXEC) i = true := by
        simp [Nat.testBit_lor, hi]
      exact hb
  · intro f hf
    obtain ⟨tl, htr, _, _, hfl⟩ := childRun_trace_split r a os
    rw [htr] at hf
    rcases List.mem_append.mp hf with hf | hf
    · have := (overrideSteps_rank r os _ hf).2
      simp [stepRank] at this
    · exact hfl f hf

theorem attrs_passthrough_witness :
    (parentRun ⟨none, none, none, 0, 0⟩ 6 osAllOk).attrs = 6 ∧
    (parentRun ⟨none, none, none, 0, 0⟩ 6 osAllOk).trace =
      [Step.posixSpawnCall 6] :=
  (attrs_passthrough ⟨none, none, none, 0, 0⟩ 6 osAllOk).1 (by decide)

/-- C1, evaluated at the failing input: with a uid override, every
override step succeeding and the final `posix_spawn` (with
`POSIX_SPAWN_SETEXEC` set) failing with code 8, the duplicate's run of
`_subprocess_spawn` reaches the final spawn call and then RETURNS code
8 inside the duplicate: instead of terminating, the duplicate continues
its caller's remaining code, contradicting the specified behaviour. -/
theorem child_exec_failure_returns :
    require_pre_fork ⟨some 1000, none, none, 0, 0⟩ = true ∧
    Step.posixSpawnCall 64 ∈
      (childRun ⟨some 1000, none, none, 0, 0⟩ 0 osSpawnFail).trace ∧
    osSpawnFail.spawnRc = 8 ∧
    (childRun ⟨some 1000, none, none, 0, 0⟩ 0 osSpawnFail).outcome =
      ChildOutcome.returned 8 := by
  decide
